import Mathlib

/-!
Verification of the x86 GDT / segmentation core of qiling
(`qiling/arch/x86.py`): descriptor encoding, selector construction,
GDT slot registration and scanning, the 64-bit FS/GS MSR accessors,
and the x86-64 register width query.

Pure functions from the source are translated operator for operator;
the stateful parts (emulated memory, mapped regions, MSR store,
registers) are modelled by explicit state passing over `QlState`.
-/

namespace QilingX86

/-- Little-endian serialization of a 64-bit word into its 8 bytes, as
`struct.pack` with format `<Q` produces. -/
def pack64 (x : Nat) : List Nat :=
  [x % 256, x / 256 % 256, x / 65536 % 256, x / 16777216 % 256,
   x / 4294967296 % 256, x / 1099511627776 % 256,
   x / 281474976710656 % 256, x / 72057594037927936 % 256]

/-- Little-endian reconstruction of a natural number from a byte list, as
`ql.unpack64` does on an 8-byte read. -/
def unpack64 (bs : List Nat) : Nat :=
  bs.foldr (fun b acc => b + 256 * acc) 0

/-- Modelled from the spec: the constants below come from `x86_const`,
which is not part of the shown source.  Access-byte bits follow the
hardware access-byte layout the spec describes (present, type,
privilege, direction/conforming, readable/writable); selector flags
carry the table-origin and privilege bits; the F constants are the
descriptor flags nibble; the remaining constants are the configured GDT
region, FS/GS segment regions and the FS/GS base MSR numbers. -/
def QL_X86_A_PRESENT : Nat := 0x80

/-- Modelled from the spec: ring-3 privilege bits of the access byte. -/
def QL_X86_A_PRIV_3 : Nat := 0x60

/-- Modelled from the spec: ring-0 privilege bits of the access byte. -/
def QL_X86_A_PRIV_0 : Nat := 0x0

/-- Modelled from the spec: code-segment type bit of the access byte. -/
def QL_X86_A_CODE : Nat := 0x10

/-- Modelled from the spec: data-segment type bit of the access byte. -/
def QL_X86_A_DATA : Nat := 0x10

/-- Modelled from the spec: executable bit of the access byte. -/
def QL_X86_A_EXEC : Nat := 0x8

/-- Modelled from the spec: direction/conforming bit of the access byte. -/
def QL_X86_A_DIR_CON_BIT : Nat := 0x4

/-- Modelled from the spec: readable bit for code segments. -/
def QL_X86_A_CODE_READABLE : Nat := 0x2

/-- Modelled from the spec: writable bit for data segments. -/
def QL_X86_A_DATA_WRITABLE : Nat := 0x2

/-- Modelled from the spec: selector flag selecting the GDT as table origin. -/
def QL_X86_S_GDT : Nat := 0x0

/-- Modelled from the spec: selector requested-privilege-level 3 bits. -/
def QL_X86_S_PRIV_3 : Nat := 0x3

/-- Modelled from the spec: selector requested-privilege-level 0 bits. -/
def QL_X86_S_PRIV_0 : Nat := 0x0

/-- Modelled from the spec: the 32-bit-protected-size bit of the descriptor
flags nibble, the fixed flags value used at registration. -/
def QL_X86_F_PROT_32 : Nat := 0x4

/-- Modelled from the spec: default GDT base address. -/
def QL_X86_GDT_ADDR : Nat := 0x3000

/-- Modelled from the spec: default GDT region limit. -/
def QL_X86_GDT_LIMIT : Nat := 0x1000

/-- Modelled from the spec: GS segment region base. -/
def GS_SEGMENT_ADDR : Nat := 0x5000

/-- Modelled from the spec: GS segment region size. -/
def GS_SEGMENT_SIZE : Nat := 0x1000

/-- Modelled from the spec: FS segment region base. -/
def FS_SEGMENT_ADDR : Nat := 0x6000

/-- Modelled from the spec: FS segment region size. -/
def FS_SEGMENT_SIZE : Nat := 0x4000

/-- Modelled from the spec: the GS base model-specific register number. -/
def GSMSR : Nat := 0xC0000101

/-- Modelled from the spec: the FS base model-specific register number. -/
def FSMSR : Nat := 0xC0000100

/-- The packed 64-bit descriptor word built by
`GDTManager._create_gdt_entry`: the value `to_ret` after its six
mask-shift-or steps, translated operator for operator. -/
def gdt_entry_word (base limit access flags : Nat) : Nat :=
  let r0 := limit &&& 0xffff
  let r1 := r0 ||| (base &&& 0xffffff) <<< 16
  let r2 := r1 ||| (access &&& 0xff) <<< 40
  let r3 := r2 ||| ((limit >>> 16) &&& 0xf) <<< 48
  let r4 := r3 ||| (flags &&& 0xff) <<< 52
  let r5 := r4 ||| ((base >>> 24) &&& 0xff) <<< 56
  r5

/-- `GDTManager._create_gdt_entry`: the packed word serialized to 8
little-endian bytes by `pack('<Q', to_ret)`. -/
def create_gdt_entry (base limit access flags : Nat) : List Nat :=
  pack64 (gdt_entry_word base limit access flags)

/-- `GDTManager._create_selector`: `to_ret = flags; to_ret |= idx << 3`. -/
def create_selector (idx flags : Nat) : Nat :=
  let r0 := flags
  let r1 := r0 ||| idx <<< 3
  r1

/-- The 64-bit word the spec describes field by field: bits[0:16) =
`limit & 0xFFFF`, bits[16:40) = `base & 0xFFFFFF`, bits[40:48) =
`access & 0xFF`, bits[48:52) = `(limit >> 16) & 0xF`, bits[52:56) = the
meaningful low 4 bits of `flags`, bits[56:64) = `(base >> 24) & 0xFF`.
Each masked field is placed at its bit offset; the fields are disjoint,
so placement is by addition. -/
def spec_gdt_word (base limit access flags : Nat) : Nat :=
  (limit &&& 0xffff)
    + (base &&& 0xffffff) * 65536
    + (access &&& 0xff) * 1099511627776
    + ((limit >>> 16) &&& 0xf) * 281474976710656
    + (flags &&& 0xf) * 4503599627370496
    + ((base >>> 24) &&& 0xff) * 72057594037927936

/-- Modelled from the spec: no decoder exists in the source; this reads
the four fields back from an 8-byte descriptor following the bit layout
of the spec (limit split over bits [0:16) and [48:52), base split over
bits [16:40) and [56:64), access at [40:48), flags nibble at [52:56)). -/
def decode_gdt_entry (bs : List Nat) : Nat × Nat × Nat × Nat :=
  let w := unpack64 bs
  let base := ((w >>> 16) &&& 0xffffff) ||| ((w >>> 56) &&& 0xff) <<< 24
  let limit := (w &&& 0xffff) ||| ((w >>> 48) &&& 0xf) <<< 16
  let access := (w >>> 40) &&& 0xff
  let flags := (w >>> 52) &&& 0xf
  (base, limit, access, flags)

/-- Modelled from the spec: the memory subsystem, MSR store and register
file are external collaborators of this core; the state carries the byte
memory, the list of mapped regions (address, size), the MSR store, the
GDTR contents and the code-segment selector register written by the
setup routines. -/
structure QlState where
  mem : Nat → Nat
  mapped : List (Nat × Nat)
  msr : Nat → Nat
  gdtr : Nat × Nat × Nat × Nat
  cs : Nat

/-- Modelled from the spec: `is_mapped(address, size)` of the memory
subsystem holds when the queried range lies inside one previously mapped
region. -/
def mem_is_mapped (st : QlState) (addr size : Nat) : Bool :=
  st.mapped.any fun r => decide (r.1 ≤ addr) && decide (addr + size ≤ r.1 + r.2)

/-- Modelled from the spec: `map(address, size, tag)` records the region
as mapped. -/
def mem_map (st : QlState) (addr size : Nat) : QlState :=
  { st with mapped := (addr, size) :: st.mapped }

/-- Byte-wise store of a byte list into a memory function starting at
`addr`; later bytes land at successively higher addresses. -/
def write_bytes (m : Nat → Nat) (addr : Nat) : List Nat → (Nat → Nat)
  | [] => m
  | b :: bs => write_bytes (fun a => if a = addr then b else m a) (addr + 1) bs

/-- Modelled from the spec: `write(address, bytes)` of the memory
subsystem. -/
def mem_write (st : QlState) (addr : Nat) (bs : List Nat) : QlState :=
  { st with mem := write_bytes st.mem addr bs }

/-- Modelled from the spec: `read(address, size)` of the memory
subsystem. -/
def mem_read (st : QlState) (addr size : Nat) : List Nat :=
  (List.range size).map fun i => st.mem (addr + i)

/-- Modelled from the spec: `QlMsrManager.write`. -/
def msr_write (st : QlState) (addr value : Nat) : QlState :=
  { st with msr := fun a => if a = addr then value else st.msr a }

/-- Modelled from the spec: `QlMsrManager.read`. -/
def msr_read (st : QlState) (addr : Nat) : Nat :=
  st.msr addr

/-- The fields of `GDTManager` kept after construction. -/
structure GDTManager where
  gdt_number : Nat
  gdt_addr : Nat
  gdt_limit : Nat

/-- `GDTManager.__init__`: maps the GDT region when it is not already
mapped, writes (0, base, limit, 0) to the GDTR, and records the entry
count, base and limit. -/
def gdt_manager_init (st : QlState) (GDT_ADDR GDT_LIMIT GDT_ENTRY_ENTRIES : Nat) :
    GDTManager × QlState :=
  let st := if mem_is_mapped st GDT_ADDR GDT_LIMIT then st else mem_map st GDT_ADDR GDT_LIMIT
  let st := { st with gdtr := (0, GDT_ADDR, GDT_LIMIT, 0) }
  ({ gdt_number := GDT_ENTRY_ENTRIES, gdt_addr := GDT_ADDR, gdt_limit := GDT_LIMIT }, st)

/-- The error raised on an out-of-range GDT slot index. -/
inductive QlGDTError where
  | indexError
deriving DecidableEq

/-- `GDTManager.register_gdt_segment`, translated statement by statement:
for indices 14 and 15 it first maps `(SEGMENT_ADDR, SEGMENT_ADDR)` if
that range is not mapped, then checks the index range, then encodes the
entry with the fixed flags `QL_X86_F_PROT_32` (the `RPORT` argument is
never used) and writes it at `gdt_addr + (index << 3)`.  Raising
`QlGDTError` is modelled by returning the error alongside the state as
mutated up to the raise point. -/
def register_gdt_segment (g : GDTManager) (st : QlState) (index : Int)
    (SEGMENT_ADDR SEGMENT_SIZE SPORT RPORT : Nat) : QlState × Option QlGDTError :=
  let st := if index = 14 ∨ index = 15 then
      if mem_is_mapped st SEGMENT_ADDR SEGMENT_ADDR then st
      else mem_map st SEGMENT_ADDR SEGMENT_ADDR
    else st
  if index < 0 ∨ (g.gdt_number : Int) ≤ index then
    (st, some QlGDTError.indexError)
  else
    let gdt_entry := create_gdt_entry SEGMENT_ADDR SEGMENT_SIZE SPORT QL_X86_F_PROT_32
    (mem_write st (g.gdt_addr + index.toNat <<< 3) gdt_entry, none)

/-- Whether the 8 bytes of GDT slot `i` read back as the zero word, the
emptiness test of `GDTManager.get_free_idx`. -/
def gdt_entry_zero (g : GDTManager) (st : QlState) (i : Int) : Bool :=
  unpack64 (mem_read st (g.gdt_addr + i.toNat <<< 3) 8) == 0

/-- The elements `a, a+1, ...` of length `n`: the tail model of a Python
`range`. -/
def int_range_go : Int → Nat → List Int
  | _, 0 => []
  | a, n + 1 => a :: int_range_go (a + 1) n

/-- The list `[a, a+1, ..., b-1]`, as Python `range(a, b)` iterates. -/
def int_range (a b : Int) : List Int :=
  int_range_go a (b - a).toNat

/-- The early-returning loop body of `GDTManager.get_free_idx`. -/
def scan_free (g : GDTManager) (st : QlState) : List Int → Int
  | [] => -1
  | i :: rest => if gdt_entry_zero g st i then i else scan_free g st rest

/-- `GDTManager.get_free_idx`: linear scan of `range(start, end)`
returning the first index whose 8-byte entry reads back as zero, `-1`
when none does; the default end argument `-1` stands for `gdt_number`. -/
def get_free_idx (g : GDTManager) (st : QlState) (start e : Int) : Int :=
  let e := if e = -1 then (g.gdt_number : Int) else e
  scan_free g st (int_range start e)

/-- `ql_x86_register_cs`: registers the 32-bit code segment at slot 3
with base 0, limit `0xfffff000` and the present/code/readable/ring-3/
conforming access byte, then writes the slot-3 ring-3 GDT selector to
`cs`.  When registration raises, the selector write is skipped and the
error propagates. -/
def ql_x86_register_cs (g : GDTManager) (st : QlState) : QlState × Option QlGDTError :=
  let r := register_gdt_segment g st 3 0 0xfffff000
    (QL_X86_A_PRESENT ||| QL_X86_A_CODE ||| QL_X86_A_CODE_READABLE |||
      QL_X86_A_PRIV_3 ||| QL_X86_A_EXEC ||| QL_X86_A_DIR_CON_BIT)
    (QL_X86_S_GDT ||| QL_X86_S_PRIV_3)
  match r.2 with
  | some e => (r.1, some e)
  | none => ({ r.1 with cs := create_selector 3 (QL_X86_S_GDT ||| QL_X86_S_PRIV_3) }, none)

/-- `ql_x8664_set_gs`: maps the GS segment region when absent, then
writes its base address to the GS base MSR. -/
def ql_x8664_set_gs (st : QlState) : QlState :=
  let st := if mem_is_mapped st GS_SEGMENT_ADDR GS_SEGMENT_SIZE then st
    else mem_map st GS_SEGMENT_ADDR GS_SEGMENT_SIZE
  msr_write st GSMSR GS_SEGMENT_ADDR

/-- `ql_x8664_get_gs`: reads the GS base MSR. -/
def ql_x8664_get_gs (st : QlState) : Nat :=
  msr_read st GSMSR

/-- `ql_x8664_set_fs`: writes `addr` to the FS base MSR. -/
def ql_x8664_set_fs (st : QlState) (addr : Nat) : QlState :=
  msr_write st FSMSR addr

/-- `ql_x8664_get_fs`: reads the FS base MSR. -/
def ql_x8664_get_fs (st : QlState) : Nat :=
  msr_read st FSMSR

/-- Modelled from the spec: the register tables live in `x86_const`,
which is not part of the shown source; each table is modelled by the
list of engine identifiers it maps names to, with representative
pairwise-distinct identifier values.  This is the 8-bit table. -/
def reg_map_8 : List Nat := [1, 2, 3, 4]

/-- Modelled from the spec: the 16-bit register table. -/
def reg_map_16 : List Nat := [10, 11, 12]

/-- Modelled from the spec: the 32-bit register table. -/
def reg_map_32 : List Nat := [20, 21, 22]

/-- Modelled from the spec: the 64-bit general-purpose register table. -/
def reg_map_64 : List Nat := [30, 31, 32]

/-- Modelled from the spec: the flags register identifier, living in the
miscellaneous table. -/
def UC_X86_REG_EFLAGS : Nat := 25

/-- Modelled from the spec: the miscellaneous table, mostly 16-bit
registers plus the 32-bit flags register. -/
def reg_map_misc : List Nat := [UC_X86_REG_EFLAGS, 40, 41, 42]

/-- Modelled from the spec: the control register table. -/
def reg_map_cr : List Nat := [50, 51]

/-- Modelled from the spec: the floating-point/status register table. -/
def reg_map_st : List Nat := [60, 61]

/-- Modelled from the spec: the segment-base pseudo-register table. -/
def reg_map_seg_base : List Nat := [70, 71]

/-- Modelled from the spec: a representative identifier of the 8-bit
table. -/
def UC_X86_REG_AL : Nat := 1

/-- Modelled from the spec: a representative identifier of the 64-bit
general-purpose table. -/
def UC_X86_REG_RAX : Nat := 30

/-- The ordered `regmaps` tuple of `QlArchX8664.__reg_bits` with the
width attached to each table. -/
def regmaps_64 : List (List Nat × Nat) :=
  [(reg_map_8, 8), (reg_map_16, 16), (reg_map_32, 32), (reg_map_64, 64),
   (reg_map_misc, 16), (reg_map_cr, 64), (reg_map_st, 32), (reg_map_seg_base, 64)]

/-- `QlArchX8664.__reg_bits`: the flags register is special-cased to 32
bits before the ordered table scan; `next(..., 0)` falls back to 0 when
no table holds the identifier. -/
def reg_bits (register : Nat) : Nat :=
  if register = UC_X86_REG_EFLAGS then 32
  else
    match regmaps_64.find? (fun p => p.1.contains register) with
    | some p => p.2
    | none => 0

/-- The all-zero initial state used by the concrete scenarios. -/
def st0 : QlState :=
  { mem := fun _ => 0, mapped := [], msr := fun _ => 0, gdtr := (0, 0, 0, 0), cs := 0 }

/-! Arithmetic helper lemmas: masks as remainders, shifts as division
and multiplication, and disjoint bitwise-or as addition. -/

theorem lor_shift_add {a : Nat} (v k : Nat) (h : a < 2 ^ k) :
    a ||| v <<< k = a + v * 2 ^ k := by
  rw [Nat.shiftLeft_eq, Nat.lor_comm, Nat.mul_comm v, ← Nat.mul_add_lt_is_or h]
  ring

theorem and_mask3 (x : Nat) : x &&& 7 = x % 8 := by
  have h := Nat.and_pow_two_sub_one_eq_mod x 3
  norm_num at h
  exact h

theorem and_mask4 (x : Nat) : x &&& 15 = x % 16 := by
  have h := Nat.and_pow_two_sub_one_eq_mod x 4
  norm_num at h
  exact h

theorem and_mask8 (x : Nat) : x &&& 255 = x % 256 := by
  have h := Nat.and_pow_two_sub_one_eq_mod x 8
  norm_num at h
  exact h

theorem and_mask16 (x : Nat) : x &&& 65535 = x % 65536 := by
  have h := Nat.and_pow_two_sub_one_eq_mod x 16
  norm_num at h
  exact h

theorem and_mask24 (x : Nat) : x &&& 16777215 = x % 16777216 := by
  have h := Nat.and_pow_two_sub_one_eq_mod x 24
  norm_num at h
  exact h

theorem shr3 (x : Nat) : x >>> 3 = x / 8 := by
  have h := Nat.shiftRight_eq_div_pow x 3
  norm_num at h
  exact h

theorem shr16 (x : Nat) : x >>> 16 = x / 65536 := by
  have h := Nat.shiftRight_eq_div_pow x 16
  norm_num at h
  exact h

theorem shr24 (x : Nat) : x >>> 24 = x / 16777216 := by
  have h := Nat.shiftRight_eq_div_pow x 24
  norm_num at h
  exact h

theorem shr40 (x : Nat) : x >>> 40 = x / 1099511627776 := by
  have h := Nat.shiftRight_eq_div_pow x 40
  norm_num at h
  exact h

theorem shr48 (x : Nat) : x >>> 48 = x / 281474976710656 := by
  have h := Nat.shiftRight_eq_div_pow x 48
  norm_num at h
  exact h

theorem shr52 (x : Nat) : x >>> 52 = x / 4503599627370496 := by
  have h := Nat.shiftRight_eq_div_pow x 52
  norm_num at h
  exact h

theorem shr56 (x : Nat) : x >>> 56 = x / 72057594037927936 := by
  have h := Nat.shiftRight_eq_div_pow x 56
  norm_num at h
  exact h

theorem lor16 {a : Nat} (v : Nat) (h : a < 65536) : a ||| v <<< 16 = a + v * 65536 := by
  have g := lor_shift_add v 16 (a := a) (by norm_num [h])
  norm_num at g
  exact g

theorem lor24 {a : Nat} (v : Nat) (h : a < 16777216) : a ||| v <<< 24 = a + v * 16777216 := by
  have g := lor_shift_add v 24 (a := a) (by norm_num [h])
  norm_num at g
  exact g

theorem lor40 {a : Nat} (v : Nat) (h : a < 1099511627776) :
    a ||| v <<< 40 = a + v * 1099511627776 := by
  have g := lor_shift_add v 40 (a := a) (by norm_num [h])
  norm_num at g
  exact g

theorem lor48 {a : Nat} (v : Nat) (h : a < 281474976710656) :
    a ||| v <<< 48 = a + v * 281474976710656 := by
  have g := lor_shift_add v 48 (a := a) (by norm_num [h])
  norm_num at g
  exact g

theorem lor52 {a : Nat} (v : Nat) (h : a < 4503599627370496) :
    a ||| v <<< 52 = a + v * 4503599627370496 := by
  have g := lor_shift_add v 52 (a := a) (by norm_num [h])
  norm_num at g
  exact g

theorem lor56 {a : Nat} (v : Nat) (h : a < 72057594037927936) :
    a ||| v <<< 56 = a + v * 72057594037927936 := by
  have g := lor_shift_add v 56 (a := a) (by norm_num [h])
  norm_num at g
  exact g

/-- The packed descriptor word as plain arithmetic: when the low byte of
`flags` fits the 4-bit flags field, the six or-ed pieces are disjoint and
the word is their sum. -/
theorem gdt_entry_word_eq (base limit access flags : Nat) (hf : flags % 256 < 16) :
    gdt_entry_word base limit access flags =
      limit % 65536 + base % 16777216 * 65536 + access % 256 * 1099511627776
        + limit / 65536 % 16 * 281474976710656 + flags % 256 * 4503599627370496
        + base / 16777216 % 256 * 72057594037927936 := by
  unfold gdt_entry_word
  simp only [and_mask16, and_mask24, and_mask8, and_mask4, shr16, shr24]
  rw [lor16 _ (by omega), lor40 _ (by omega), lor48 _ (by omega), lor52 _ (by omega),
    lor56 _ (by omega)]

theorem split_div {x y k : Nat} (hx : x < k) : (x + k * y) / k = y := by
  rcases Nat.eq_zero_or_pos k with hk | hk
  · omega
  · rw [Nat.add_mul_div_left x y hk, Nat.div_eq_of_lt hx, Nat.zero_add]

theorem split_mod {x y k : Nat} (hx : x < k) : (x + k * y) % k = x := by
  rw [Nat.add_mul_mod_self_left, Nat.mod_eq_of_lt hx]

theorem unpack64_pack64 (x : Nat) (h : x < 18446744073709551616) :
    unpack64 (pack64 x) = x := by
  simp only [pack64, unpack64, List.foldr]
  omega

/-! Memory write/read round trip. -/

theorem write_bytes_lt (bs : List Nat) : ∀ (m : Nat → Nat) (addr x : Nat), x < addr →
    write_bytes m addr bs x = m x := by
  induction bs with
  | nil => intro m addr x _; rfl
  | cons b bs ih =>
    intro m addr x hx
    simp only [write_bytes]
    rw [ih _ _ _ (by omega)]
    simp only [if_neg (by omega : ¬ x = addr)]

theorem write_bytes_read (bs : List Nat) : ∀ (m : Nat → Nat) (addr : Nat),
    (List.range bs.length).map (fun i => write_bytes m addr bs (addr + i)) = bs := by
  induction bs with
  | nil => intro m addr; rfl
  | cons b bs ih =>
    intro m addr
    rw [show (b :: bs).length = bs.length + 1 from rfl, List.range_succ_eq_map]
    simp only [List.map_cons, List.map_map]
    congr 1
    · simp only [write_bytes, Nat.add_zero]
      rw [write_bytes_lt bs _ _ _ (by omega)]
      simp
    · refine Eq.trans (List.map_congr_left ?_) (ih (fun a => if a = addr then b else m a) (addr + 1))
      intro i _
      simp only [Function.comp, write_bytes]
      congr 1
      omega

theorem mem_read_mem_write (st : QlState) (addr : Nat) (bs : List Nat) :
    mem_read (mem_write st addr bs) addr bs.length = bs := by
  unfold mem_read mem_write
  exact write_bytes_read bs st.mem addr

/-! Characterization of the free-slot scan. -/

theorem scan_free_go (g : GDTManager) (st : QlState) :
    ∀ (n : Nat) (a : Int),
      (scan_free g st (int_range_go a n) = -1 ∧
        ∀ j : Int, a ≤ j → j < a + n → gdt_entry_zero g st j = false) ∨
      (a ≤ scan_free g st (int_range_go a n) ∧
        scan_free g st (int_range_go a n) < a + n ∧
        gdt_entry_zero g st (scan_free g st (int_range_go a n)) = true ∧
        ∀ j : Int, a ≤ j → j < scan_free g st (int_range_go a n) →
          gdt_entry_zero g st j = false) := by
  intro n
  induction n with
  | zero =>
    intro a
    left
    refine ⟨rfl, ?_⟩
    intro j h1 h2
    exfalso
    omega
  | succ n ih =>
    intro a
    by_cases h : gdt_entry_zero g st a = true
    · have hs : scan_free g st (int_range_go a (n + 1)) = a := by
        simp [int_range_go, scan_free, h]
      right
      rw [hs]
      refine ⟨le_refl a, by omega, h, ?_⟩
      intro j h1 h2
      exfalso
      omega
    · have hb : gdt_entry_zero g st a = false := by
        revert h
        cases gdt_entry_zero g st a <;> simp
      have hs : scan_free g st (int_range_go a (n + 1)) =
          scan_free g st (int_range_go (a + 1) n) := by
        simp [int_range_go, scan_free, hb]
      rw [hs]
      rcases ih (a + 1) with ⟨h1, h2⟩ | ⟨h1, h2, h3, h4⟩
      · left
        refine ⟨h1, ?_⟩
        intro j hj1 hj2
        by_cases hja : j = a
        · exact hja ▸ hb
        · exact h2 j (by omega) (by push_cast at hj2 ⊢; omega)
      · right
        refine ⟨by omega, by push_cast at h2 ⊢; omega, h3, ?_⟩
        intro j hj1 hj2
        by_cases hja : j = a
        · exact hja ▸ hb
        · exact h4 j (by omega) hj2

set_option maxRecDepth 40000 in
/-- C1 (counterexample): the claim quantifies over every `flags`, but at
`flags = 16` the code's or-composition spills the high nibble of
`flags & 0xFF` into bits [56:64), so the output differs from the
little-endian serialization of the word whose fields are as the claim
lists them (bits [56:64) = `(base >> 24) & 0xFF`). -/
theorem create_gdt_entry_cex :
    create_gdt_entry 0 0 0 16 ≠ pack64 (spec_gdt_word 0 0 0 16) := by
  decide

/-- C1 (amended): for every `(base, limit, access, flags)` whose low
byte of `flags` fits the 4-bit flags field, the encoder produces exactly
the 8-byte little-endian serialization of the 64-bit word with
bits[0:16) = `limit & 0xFFFF`, bits[16:40) = `base & 0xFFFFFF`,
bits[40:48) = `access & 0xFF`, bits[48:52) = `(limit >> 16) & 0xF`,
bits[52:56) = the low 4 bits of `flags`, bits[56:64) =
`(base >> 24) & 0xFF`. -/
theorem create_gdt_entry_spec (base limit access flags : Nat)
    (hf : flags &&& 0xff < 16) :
    create_gdt_entry base limit access flags = pack64 (spec_gdt_word base limit access flags) := by
  rw [and_mask8] at hf
  unfold create_gdt_entry spec_gdt_word
  rw [gdt_entry_word_eq base limit access flags hf]
  simp only [and_mask16, and_mask24, and_mask8, and_mask4, shr16, shr24]
  refine congrArg pack64 ?_
  omega

/-- C1 (witness): the amended encoder equation at a concrete input. -/
theorem create_gdt_entry_spec_witness :
    (0xc &&& 0xff : Nat) < 16 ∧
      create_gdt_entry 0x12345678 0xabcde 0x9a 0xc =
        pack64 (spec_gdt_word 0x12345678 0xabcde 0x9a 0xc) :=
  ⟨by decide, create_gdt_entry_spec 0x12345678 0xabcde 0x9a 0xc (by decide)⟩

/-- C2: for every `(base, limit, access, flags)` within the valid bit
ranges (base below 2^32, limit below 2^20, access below 2^8, flags
below 2^4), decoding the 8-byte descriptor produced by the encoder
reconstructs the same four fields, rejoining the split 20-bit limit and
32-bit base. -/
theorem decode_encode_roundtrip (base limit access flags : Nat)
    (hb : base < 2 ^ 32) (hl : limit < 2 ^ 20) (ha : access < 2 ^ 8) (hf : flags < 2 ^ 4) :
    decode_gdt_entry (create_gdt_entry base limit access flags) =
      (base, limit, access, flags) := by
  have hb' : base < 4294967296 := by norm_num at hb; exact hb
  have hl' : limit < 1048576 := by norm_num at hl; exact hl
  have ha' : access < 256 := by norm_num at ha; exact ha
  have hf' : flags < 16 := by norm_num at hf; exact hf
  have hfm : flags % 256 < 16 := by omega
  have hw := gdt_entry_word_eq base limit access flags hfm
  have e16 : gdt_entry_word base limit access flags =
      limit % 65536 + 65536 * (base % 16777216 + 16777216 * (access % 256 + 256 *
        (limit / 65536 % 16 + 16 * (flags % 256 + 16 * (base / 16777216 % 256))))) := by
    rw [hw]; ring
  have e40 : gdt_entry_word base limit access flags =
      (limit % 65536 + 65536 * (base % 16777216)) + 1099511627776 * (access % 256 + 256 *
        (limit / 65536 % 16 + 16 * (flags % 256 + 16 * (base / 16777216 % 256)))) := by
    rw [hw]; ring
  have e48 : gdt_entry_word base limit access flags =
      (limit % 65536 + 65536 * (base % 16777216) + 1099511627776 * (access % 256))
        + 281474976710656 * (limit / 65536 % 16 + 16 * (flags % 256 + 16 *
          (base / 16777216 % 256))) := by
    rw [hw]; ring
  have e52 : gdt_entry_word base limit access flags =
      (limit % 65536 + 65536 * (base % 16777216) + 1099511627776 * (access % 256)
          + 281474976710656 * (limit / 65536 % 16))
        + 4503599627370496 * (flags % 256 + 16 * (base / 16777216 % 256)) := by
    rw [hw]; ring
  have e56 : gdt_entry_word base limit access flags =
      (limit % 65536 + 65536 * (base % 16777216) + 1099511627776 * (access % 256)
          + 281474976710656 * (limit / 65536 % 16) + 4503599627370496 * (flags % 256))
        + 72057594037927936 * (base / 16777216 % 256) := by
    rw [hw]; ring
  have d0 : gdt_entry_word base limit access flags % 65536 = limit % 65536 := by
    rw [e16]; exact split_mod (by omega)
  have d16 : gdt_entry_word base limit access flags / 65536 % 16777216 = base % 16777216 := by
    rw [e16, split_div (by omega)]; exact split_mod (by omega)
  have d40 : gdt_entry_word base limit access flags / 1099511627776 % 256 = access % 256 := by
    rw [e40, split_div (by omega)]; exact split_mod (by omega)
  have d48 : gdt_entry_word base limit access flags / 281474976710656 % 16 =
      limit / 65536 % 16 := by
    rw [e48, split_div (by omega)]; exact split_mod (by omega)
  have d52 : gdt_entry_word base limit access flags / 4503599627370496 % 16 = flags % 256 := by
    rw [e52, split_div (by omega)]; exact split_mod (by omega)
  have d56 : gdt_entry_word base limit access flags / 72057594037927936 % 256 =
      base / 16777216 % 256 := by
    rw [e56, split_div (by omega)]
    exact Nat.mod_eq_of_lt (by omega)
  simp only [decode_gdt_entry, create_gdt_entry]
  rw [unpack64_pack64 _ (by rw [hw]; omega)]
  simp only [and_mask16, and_mask24, and_mask8, and_mask4, shr16, shr24, shr40, shr48,
    shr52, shr56]
  rw [lor24 _ (by omega), lor16 _ (by omega)]
  rw [d0, d16, d40, d48, d52, d56]
  simp only [Prod.mk.injEq]
  refine ⟨by omega, by omega, by omega, by omega⟩

/-- C2 (witness): the round trip at a concrete in-range input. -/
theorem decode_encode_roundtrip_witness :
    (0xdeadbeef : Nat) < 2 ^ 32 ∧ (0xfffff : Nat) < 2 ^ 20 ∧ (0xfe : Nat) < 2 ^ 8 ∧
      (0xc : Nat) < 2 ^ 4 ∧
      decode_gdt_entry (create_gdt_entry 0xdeadbeef 0xfffff 0xfe 0xc) =
        (0xdeadbeef, 0xfffff, 0xfe, 0xc) :=
  ⟨by norm_num, by norm_num, by norm_num, by norm_num,
    decode_encode_roundtrip 0xdeadbeef 0xfffff 0xfe 0xc (by norm_num) (by norm_num)
      (by norm_num) (by norm_num)⟩

/-- C8: `create_selector idx flags` always equals `(idx << 3) ||| flags`
with no bounds check, and for `flags < 8` the low 3 bits of the result
are `flags` while the result shifted right by 3 is `idx`. -/
theorem create_selector_spec :
    (∀ idx flags : Nat, create_selector idx flags = idx <<< 3 ||| flags) ∧
    (∀ idx flags : Nat, flags < 8 →
      create_selector idx flags &&& 7 = flags ∧ create_selector idx flags >>> 3 = idx) := by
  constructor
  · intro idx flags
    unfold create_selector
    exact Nat.lor_comm _ _
  · intro idx flags h
    have e : create_selector idx flags = flags + idx * 8 := by
      unfold create_selector
      have g := lor_shift_add idx 3 (a := flags) (by norm_num [h])
      norm_num at g
      exact g
    rw [e, and_mask3, shr3]
    omega

/-- C8 (witness): the selector properties at a concrete index and flag
value. -/
theorem create_selector_spec_witness :
    (3 : Nat) < 8 ∧ create_selector 5 3 &&& 7 = 3 ∧ create_selector 5 3 >>> 3 = 5 :=
  ⟨by decide, create_selector_spec.2 5 3 (by decide)⟩

/-! Concrete scenario states. -/

/-- A 16-entry GDT manager at the default base, as the scenarios use. -/
def g16 : GDTManager :=
  { gdt_number := 16, gdt_addr := QL_X86_GDT_ADDR, gdt_limit := QL_X86_GDT_LIMIT }

/-- A 10-entry GDT manager, small enough that the reserved FS/GS slots
14 and 15 are out of range. -/
def g10 : GDTManager :=
  { gdt_number := 10, gdt_addr := QL_X86_GDT_ADDR, gdt_limit := QL_X86_GDT_LIMIT }

/-- The access byte passed by `ql_x86_register_cs`:
present/code/readable/ring-3/executable/conforming. -/
def cs_access : Nat :=
  QL_X86_A_PRESENT ||| QL_X86_A_CODE ||| QL_X86_A_CODE_READABLE |||
    QL_X86_A_PRIV_3 ||| QL_X86_A_EXEC ||| QL_X86_A_DIR_CON_BIT

/-- The state after initializing a 16-entry GDT at the default base from
the all-zero state. -/
def c3_st1 : QlState :=
  (gdt_manager_init st0 QL_X86_GDT_ADDR QL_X86_GDT_LIMIT 16).2

/-- The GDT manager produced by that initialization. -/
def c3_g : GDTManager :=
  (gdt_manager_init st0 QL_X86_GDT_ADDR QL_X86_GDT_LIMIT 16).1

/-- The state and outcome after registering the 32-bit code segment. -/
def c3_result : QlState × Option QlGDTError :=
  ql_x86_register_cs c3_g c3_st1

set_option maxRecDepth 100000 in
/-- C3 (counterexample): in the end-to-end scenario the raw slot-3 bytes
do not decode to limit `0xFFFFF000`: that value does not fit the 20-bit
limit field, whose split halves store only `limit & 0xFFFF` and
`(limit >> 16) & 0xF`. -/
theorem register_cs_limit_cex :
    (decode_gdt_entry (mem_read c3_result.1 (QL_X86_GDT_ADDR + 24) 8)).2.1 ≠ 0xfffff000 := by
  decide

set_option maxRecDepth 100000 in
/-- C3 (amended): initializing a 16-entry GDT at the default base and
registering the 32-bit code segment at slot 3 with base 0 and limit
`0xFFFFF000` succeeds, and reading the 8 raw bytes at `base + 24` and
decoding them yields base 0, limit `0x000FF000` (the value `0xFFFFF000`
truncated to the 20-bit limit field), the access byte passed in, and the
fixed `QL_X86_F_PROT_32` flags nibble. -/
theorem register_cs_scenario :
    c3_result.2 = none ∧
      decode_gdt_entry (mem_read c3_result.1 (QL_X86_GDT_ADDR + 24) 8) =
        (0, 0xff000, cs_access, QL_X86_F_PROT_32) := by
  decide

/-- C4 (counterexample): `ql_x8664_set_fs` does not map the absent FS
region (unlike `ql_x8664_set_gs`, which maps the GS region): starting
from the empty state, the FS region is unmapped both before and after
the call. -/
theorem set_fs_no_map_cex :
    mem_is_mapped st0 FS_SEGMENT_ADDR FS_SEGMENT_SIZE = false ∧
      mem_is_mapped (ql_x8664_set_fs st0 FS_SEGMENT_ADDR) FS_SEGMENT_ADDR FS_SEGMENT_SIZE
        = false := by
  decide

/-- C4 (amended): `ql_x8664_set_gs` maps the GS region when absent and
writes its base through the GS MSR; `ql_x8664_set_fs` writes the FS base
MSR without mapping; `ql_x8664_get_gs` and `ql_x8664_get_fs` read the
MSR; none of the four touches memory contents, so no GDT descriptor is
ever written. -/
theorem fs_gs_msr_accessors :
    (∀ st : QlState,
      (ql_x8664_set_gs st).msr GSMSR = GS_SEGMENT_ADDR ∧
      (ql_x8664_set_gs st).mem = st.mem ∧
      (mem_is_mapped st GS_SEGMENT_ADDR GS_SEGMENT_SIZE = false →
        (ql_x8664_set_gs st).mapped = (GS_SEGMENT_ADDR, GS_SEGMENT_SIZE) :: st.mapped) ∧
      (mem_is_mapped st GS_SEGMENT_ADDR GS_SEGMENT_SIZE = true →
        (ql_x8664_set_gs st).mapped = st.mapped) ∧
      ql_x8664_get_gs st = msr_read st GSMSR) ∧
    (∀ (st : QlState) (addr : Nat),
      (ql_x8664_set_fs st addr).msr FSMSR = addr ∧
      (ql_x8664_set_fs st addr).mem = st.mem ∧
      (ql_x8664_set_fs st addr).mapped = st.mapped ∧
      ql_x8664_get_fs st = msr_read st FSMSR) := by
  constructor
  · intro st
    unfold ql_x8664_set_gs ql_x8664_get_gs msr_write msr_read mem_map
    by_cases h : mem_is_mapped st GS_SEGMENT_ADDR GS_SEGMENT_SIZE
    · rw [if_pos h]
      refine ⟨by simp, rfl, ?_, fun _ => rfl, rfl⟩
      intro hfalse
      rw [h] at hfalse
      exact absurd hfalse (by simp)
    · rw [if_neg h]
      refine ⟨by simp, rfl, fun _ => rfl, ?_, rfl⟩
      intro htrue
      exact absurd htrue h
  · intro st addr
    unfold ql_x8664_set_fs ql_x8664_get_fs msr_write msr_read
    exact ⟨by simp, rfl, rfl, rfl⟩

/-- C4 (witness): the amended accessor behavior at the empty state. -/
theorem fs_gs_msr_accessors_witness :
    (ql_x8664_set_gs st0).mapped = (GS_SEGMENT_ADDR, GS_SEGMENT_SIZE) :: st0.mapped ∧
      (ql_x8664_set_fs st0 7).msr FSMSR = 7 :=
  ⟨(fs_gs_msr_accessors.1 st0).2.2.1 (by decide), (fs_gs_msr_accessors.2 st0 7).1⟩

set_option maxRecDepth 100000 in
/-- C5: registering slot 14 with segment base `0x6000` and size `0x8000`
succeeds but leaves the segment's own region `[0x6000, 0xE000)` not
mapped: the code passes `SEGMENT_ADDR` where the mapping size belongs,
so the mapped region is `(0x6000, 0x6000)` instead of
`(0x6000, 0x8000)`. -/
theorem register_fs_slot_maps_wrong_size :
    (register_gdt_segment g16 st0 14 0x6000 0x8000 0xf3 0).2 = none ∧
      (register_gdt_segment g16 st0 14 0x6000 0x8000 0xf3 0).1.mapped = [(0x6000, 0x6000)] ∧
      mem_is_mapped (register_gdt_segment g16 st0 14 0x6000 0x8000 0xf3 0).1 0x6000 0x8000
        = false := by
  decide

/-- C6 (counterexample): with a 10-entry table, registering index 14
fails with the index-range error, yet the failed call has changed the
memory mappings: the FS/GS special case runs before the range check. -/
theorem register_out_of_range_cex :
    (register_gdt_segment g10 st0 14 0x6000 0x1000 0 0).2 = some QlGDTError.indexError ∧
      (register_gdt_segment g10 st0 14 0x6000 0x1000 0 0).1.mapped ≠ st0.mapped := by
  decide

/-- C6 (amended): for every index outside `[0, entry_count)` the call
fails with the index-range error and performs no GDT write (memory
contents are untouched); the whole state is unchanged except that for
the reserved indices 14 and 15 the FS/GS mapping side effect may occur
before the failure. -/
theorem register_out_of_range (g : GDTManager) (st : QlState) (index : Int)
    (a s sport rport : Nat) (h : index < 0 ∨ (g.gdt_number : Int) ≤ index) :
    (register_gdt_segment g st index a s sport rport).2 = some QlGDTError.indexError ∧
    (register_gdt_segment g st index a s sport rport).1.mem = st.mem ∧
    (¬(index = 14 ∨ index = 15) → (register_gdt_segment g st index a s sport rport).1 = st) := by
  unfold register_gdt_segment
  split_ifs with h1 h2 <;>
    first
      | exact ⟨rfl, rfl, fun hc => absurd h1 hc⟩
      | exact ⟨rfl, rfl, fun _ => rfl⟩

/-- C6 (witness): the amended out-of-range behavior at index 16 on the
16-entry table. -/
theorem register_out_of_range_witness :
    (register_gdt_segment g16 st0 16 0 0 0 0).2 = some QlGDTError.indexError ∧
    (register_gdt_segment g16 st0 16 0 0 0 0).1.mem = st0.mem ∧
    (¬((16 : Int) = 14 ∨ (16 : Int) = 15) →
      (register_gdt_segment g16 st0 16 0 0 0 0).1 = st0) :=
  register_out_of_range g16 st0 16 0 0 0 0 (by decide)

/-- A table state where slots 0, 1 and 4 hold non-zero entries and all
other slots are zero. -/
def st_scan : QlState :=
  mem_write (mem_write (mem_write st0 QL_X86_GDT_ADDR (pack64 1))
    (QL_X86_GDT_ADDR + 8) (pack64 1)) (QL_X86_GDT_ADDR + 32) (pack64 1)

/-- A table state where every slot is non-zero. -/
def st_full : QlState :=
  { st0 with mem := fun _ => 1 }

set_option maxRecDepth 100000 in
/-- C7: `get_free_idx` scans `[start, end)` in ascending order and
returns the first index whose 8-byte entry is all zero, or the sentinel
`-1` when none exists; in particular, with slots 0, 1 and 4 non-zero and
the rest zero it returns 2, and on a fully non-zero 16-entry table it
returns `-1`. -/
theorem get_free_idx_first_zero :
    (∀ (g : GDTManager) (st : QlState) (start e : Int), 0 ≤ start → e ≠ -1 →
      (get_free_idx g st start e = -1 ∧
          ∀ j : Int, start ≤ j → j < e → gdt_entry_zero g st j = false) ∨
        (start ≤ get_free_idx g st start e ∧ get_free_idx g st start e < e ∧
          gdt_entry_zero g st (get_free_idx g st start e) = true ∧
          ∀ j : Int, start ≤ j → j < get_free_idx g st start e →
            gdt_entry_zero g st j = false)) ∧
    get_free_idx g16 st_scan 0 16 = 2 ∧
    get_free_idx g16 st_full 0 16 = -1 := by
  refine ⟨?_, by decide, by decide⟩
  intro g st start e _ he
  have hu : get_free_idx g st start e = scan_free g st (int_range_go start (e - start).toNat) := by
    unfold get_free_idx int_range
    rw [if_neg he]
  rcases scan_free_go g st (e - start).toNat start with ⟨h1, h2⟩ | ⟨h1, h2, h3, h4⟩
  · left
    refine ⟨hu ▸ h1, ?_⟩
    intro j hj1 hj2
    exact h2 j hj1 (by omega)
  · right
    rw [hu]
    exact ⟨h1, by omega, h3, h4⟩

set_option maxRecDepth 100000 in
/-- C7 (witness): the scan characterization instantiated on the
three-slots-used table over the full range. -/
theorem get_free_idx_first_zero_witness :
    (get_free_idx g16 st_scan 0 16 = -1 ∧
        ∀ j : Int, 0 ≤ j → j < 16 → gdt_entry_zero g16 st_scan j = false) ∨
      (0 ≤ get_free_idx g16 st_scan 0 16 ∧ get_free_idx g16 st_scan 0 16 < 16 ∧
        gdt_entry_zero g16 st_scan (get_free_idx g16 st_scan 0 16) = true ∧
        ∀ j : Int, 0 ≤ j → j < get_free_idx g16 st_scan 0 16 →
          gdt_entry_zero g16 st_scan j = false) :=
  get_free_idx_first_zero.1 g16 st_scan 0 16 (by decide) (by decide)

/-- C9: on the 64-bit variant the width query returns 8 for identifiers
of the 8-bit table, 64 for the general-purpose 64-bit identifiers, 32
for the flags register identifier (special-cased ahead of the table
scan, although it lives in the otherwise 16-bit miscellaneous table),
and the sentinel 0 for an identifier present in no table. -/
theorem reg_bits_widths :
    (∀ r, r ∈ reg_map_8 → reg_bits r = 8) ∧
    (∀ r, r ∈ reg_map_64 → reg_bits r = 64) ∧
    reg_bits UC_X86_REG_EFLAGS = 32 ∧
    (∀ r, r ∉ reg_map_8 → r ∉ reg_map_16 → r ∉ reg_map_32 → r ∉ reg_map_64 →
      r ∉ reg_map_misc → r ∉ reg_map_cr → r ∉ reg_map_st → r ∉ reg_map_seg_base →
      reg_bits r = 0) := by
  refine ⟨?_, ?_, by decide, ?_⟩
  · intro r hr
    simp only [reg_map_8, List.mem_cons, List.not_mem_nil, or_false] at hr
    rcases hr with h | h | h | h <;> subst h <;> decide
  · intro r hr
    simp only [reg_map_64, List.mem_cons, List.not_mem_nil, or_false] at hr
    rcases hr with h | h | h <;> subst h <;> decide
  · intro r h8 h16 h32 h64 hm hcr hst hsb
    have hne : r ≠ UC_X86_REG_EFLAGS := by
      intro he
      exact hm (he ▸ (by decide : UC_X86_REG_EFLAGS ∈ reg_map_misc))
    unfold reg_bits
    rw [if_neg hne]
    have hnone : regmaps_64.find? (fun p => p.1.contains r) = none := by
      rw [List.find?_eq_none]
      intro p hp
      simp only [regmaps_64, List.mem_cons, List.not_mem_nil, or_false] at hp
      rcases hp with h | h | h | h | h | h | h | h <;> subst h <;>
        simpa using (by assumption : r ∉ _)
    rw [hnone]

/-- C9 (witness): the widths at a concrete identifier of each class and
at an identifier in no table. -/
theorem reg_bits_widths_witness :
    reg_bits UC_X86_REG_AL = 8 ∧ reg_bits UC_X86_REG_RAX = 64 ∧
      reg_bits UC_X86_REG_EFLAGS = 32 ∧ reg_bits 999 = 0 :=
  ⟨reg_bits_widths.1 UC_X86_REG_AL (by decide),
    reg_bits_widths.2.1 UC_X86_REG_RAX (by decide),
    reg_bits_widths.2.2.1,
    reg_bits_widths.2.2.2 999 (by decide) (by decide) (by decide) (by decide) (by decide)
      (by decide) (by decide) (by decide)⟩

/-- C10: the `RPORT` flags argument of `register_gdt_segment` is ignored
(two calls differing only in it return identical state and outcome), the
descriptor written for an in-range index is encoded with the fixed flags
`QL_X86_F_PROT_32`, and that descriptor's flags field, bits [52:56) of
the packed word, equals `QL_X86_F_PROT_32` whatever the other arguments
are. -/
theorem register_flags_fixed :
    (∀ (g : GDTManager) (st : QlState) (index : Int) (a s sport r1 r2 : Nat),
      register_gdt_segment g st index a s sport r1 =
        register_gdt_segment g st index a s sport r2) ∧
    (∀ (g : GDTManager) (st : QlState) (index : Int) (a s sport rport : Nat),
      0 ≤ index → index < (g.gdt_number : Int) →
      mem_read (register_gdt_segment g st index a s sport rport).1
          (g.gdt_addr + index.toNat <<< 3) 8 =
        create_gdt_entry a s sport QL_X86_F_PROT_32) ∧
    (∀ a s sport : Nat,
      gdt_entry_word a s sport QL_X86_F_PROT_32 >>> 52 &&& 0xf = QL_X86_F_PROT_32) := by
  refine ⟨?_, ?_, ?_⟩
  · intro g st index a s sport r1 r2
    rfl
  · intro g st index a s sport rport h1 h2
    unfold register_gdt_segment
    rw [if_neg (by omega)]
    have hlen : (8 : Nat) = (create_gdt_entry a s sport QL_X86_F_PROT_32).length := rfl
    rw [hlen]
    exact mem_read_mem_write _ _ _
  · intro a s sport
    have h4 : (QL_X86_F_PROT_32 : Nat) % 256 < 16 := by decide
    rw [shr52, and_mask4, gdt_entry_word_eq a s sport QL_X86_F_PROT_32 h4]
    have e52 : s % 65536 + a % 16777216 * 65536 + sport % 256 * 1099511627776
          + s / 65536 % 16 * 281474976710656 + QL_X86_F_PROT_32 % 256 * 4503599627370496
          + a / 16777216 % 256 * 72057594037927936 =
        (s % 65536 + 65536 * (a % 16777216) + 1099511627776 * (sport % 256)
            + 281474976710656 * (s / 65536 % 16))
          + 4503599627370496 * (QL_X86_F_PROT_32 % 256 + 16 * (a / 16777216 % 256)) := by
      ring
    rw [e52, split_div (by omega)]
    exact split_mod (by decide)

/-- C10 (witness): registration at slot 3 writes the descriptor encoded
with the fixed `QL_X86_F_PROT_32` flags, for an arbitrary caller flags
argument. -/
theorem register_flags_fixed_witness :
    mem_read (register_gdt_segment g16 st0 3 0 4096 154 7).1
        (g16.gdt_addr + (3 : Int).toNat <<< 3) 8 =
      create_gdt_entry 0 4096 154 QL_X86_F_PROT_32 :=
  register_flags_fixed.2.1 g16 st0 3 0 4096 154 7 (by decide) (by decide)

end QilingX86
